import Mathlib

/-!
# Verification of the Linear initiative normalization layer

A shallow embedding of `src/lib/linear.ts`: the data-access layer that turns
Linear project records into the internal `Initiative` model. The embedding
covers the metadata parser (`parseMeta`, `stripMarkdownLinks`), the state
mapper (`mapProjectState`), the initiative assembler (`projectToInitiative`)
and the pure accessor logic built on the fetched list (`getInitiativeBySlug`,
`getInitiativeByPagePath`, `getAverageCompleteness`).

Modelling conventions:
* JavaScript strings are Lean `String` / `List Char`.
* JavaScript numbers are modelled exactly: `JSNum` is NaN, signed infinity, or
  a rational. IEEE-754 rounding of decimal literals and of the one division in
  `getAverageCompleteness` is elided (all values arising in the claims are
  exactly representable, and integer sums divided by small lengths round
  identically); this is the standard exact-arithmetic idealization.
* The regexes of the source are translated to their deterministic matching
  semantics (each one is annotated below with the regex it embeds).
* The network fetch is I/O and out of scope; accessors that first await
  `getAllInitiatives()` are modelled as pure functions of the fetched,
  name-sorted initiative list. The sort comparator itself
  (`String.prototype.localeCompare`) is host-defined and not modelled.
-/

set_option maxRecDepth 8000

namespace LinearStatus

/-! ## Character classes (ECMAScript) -/

/-- ECMAScript WhiteSpace ∪ LineTerminator: the set matched by `\s` in a JS
regex, trimmed by `String.prototype.trim`, and skipped by `Number(...)`. -/
def jsIsWs (c : Char) : Bool :=
  let n := c.toNat
  n = 0x20 || n = 0x09 || n = 0x0a || n = 0x0b || n = 0x0c || n = 0x0d ||
  n = 0xa0 || n = 0x1680 ||
  (0x2000 ≤ n && n ≤ 0x200a) ||
  n = 0x2028 || n = 0x2029 || n = 0x202f || n = 0x205f ||
  n = 0x3000 || n = 0xfeff

/-- ECMAScript LineTerminator: the characters NOT matched by `.` in a JS
regex (without the `s` flag). -/
def isLineTerm (c : Char) : Bool :=
  let n := c.toNat
  n = 0x0a || n = 0x0d || n = 0x2028 || n = 0x2029

/-- `.` in a JS regex matches every character except a LineTerminator. -/
def dotMatchable (c : Char) : Bool := !(isLineTerm c)

/-- The class `\w` in a JS regex: `[A-Za-z0-9_]`. -/
def isWordChar (c : Char) : Bool :=
  decide (('a' ≤ c ∧ c ≤ 'z') ∨ ('A' ≤ c ∧ c ≤ 'Z') ∨ ('0' ≤ c ∧ c ≤ '9') ∨ c = '_')

/-- The class `[a-z0-9]` used by the slug generator. -/
def isSlugChar (c : Char) : Bool :=
  decide (('a' ≤ c ∧ c ≤ 'z') ∨ ('0' ≤ c ∧ c ≤ '9'))

/-! ## String helpers -/

/-- Strip leading and trailing `jsIsWs` characters from a character list. -/
def jsTrimList (cs : List Char) : List Char :=
  ((cs.dropWhile jsIsWs).reverse.dropWhile jsIsWs).reverse

/-- `String.prototype.trim`. -/
def jsTrim (s : String) : String := ⟨jsTrimList s.data⟩

/-- `String.prototype.toLowerCase`, restricted to the ASCII simple case
mapping. Full Unicode lowercasing agrees with this on every code point whose
lowercase form lies in `[a-z0-9]`, with the single exotic exception of
U+212A (Kelvin sign); strings containing it are outside the scope of the
claims below. -/
def jsToLower (s : String) : String := ⟨s.data.map Char.toLower⟩

/-- `String.prototype.split('\n')` (literal separator, as in the source). -/
def splitLines : List Char → List (List Char)
  | [] => [[]]
  | '\n' :: rest => [] :: splitLines rest
  | c :: rest =>
    match splitLines rest with
    | [] => [[c]]
    | l :: ls => (c :: l) :: ls

/-! ## JavaScript numbers -/

/-- A JavaScript number: NaN, a signed infinity, or (idealized) an exact
rational value. -/
inductive JSNum where
  | nan : JSNum
  | inf : Bool → JSNum
  | num : ℚ → JSNum
deriving DecidableEq

/-- JS truthiness of a number: `NaN`, `0` and `-0` are falsy. -/
def jsTruthy : JSNum → Bool
  | .nan => false
  | .inf _ => true
  | .num q => q != 0

/-- `n || 0` for a JS number `n`. -/
def jsOrZeroNum (n : JSNum) : JSNum := if jsTruthy n then n else .num 0

/-- `m || 0` where `m : number | undefined`. -/
def jsNumOrZero : Option JSNum → JSNum
  | none => .num 0
  | some j => jsOrZeroNum j

/-- Decimal digit run to a natural number. -/
def digitsToNat (ds : List Char) : Nat :=
  ds.foldl (fun a c => a * 10 + (c.toNat - 48)) 0

/-- Digit value in base `base` (2, 8 or 16), per the ECMAScript
non-decimal integer literal grammar. -/
def radixDigitVal (base : Nat) (c : Char) : Option Nat :=
  let v :=
    if c.isDigit then some (c.toNat - 48)
    else if ('a' ≤ c && c ≤ 'f') then some (c.toNat - 87)
    else if ('A' ≤ c && c ≤ 'F') then some (c.toNat - 55)
    else none
  match v with
  | some d => if d < base then some d else none
  | none => none

/-- Fold a digit run in base `base`, failing on a non-digit. -/
def radixFold (base : Nat) : List Char → Nat → Option Nat
  | [], acc => some acc
  | c :: rest, acc =>
    match radixDigitVal base c with
    | some d => radixFold base rest (acc * base + d)
    | none => none

/-- `0x` / `0o` / `0b` literal body: at least one digit, all digits. -/
def parseRadix (base : Nat) (cs : List Char) : JSNum :=
  match cs with
  | [] => .nan
  | _ =>
    match radixFold base cs 0 with
    | some n => .num n
    | none => .nan

/-- Exponent part after the `e`/`E` and optional sign: a nonempty digit run
that must consume the whole remainder. -/
def expDigits (r : List Char) (sign : ℤ) (mant : ℚ) : Option ℚ :=
  let ds := r.takeWhile Char.isDigit
  if ds.isEmpty then none
  else if (r.drop ds.length).isEmpty then
    some (mant * (10 : ℚ) ^ (sign * (digitsToNat ds : ℤ)))
  else none

/-- Sign of an ExponentPart. -/
def parseExpSign (r : List Char) (mant : ℚ) : Option ℚ :=
  match r with
  | '+' :: r2 => expDigits r2 1 mant
  | '-' :: r2 => expDigits r2 (-1) mant
  | r2 => expDigits r2 1 mant

/-- Optional ExponentPart, which must consume the whole remainder. -/
def parseExp (rest : List Char) (mant : ℚ) : Option ℚ :=
  match rest with
  | [] => some mant
  | 'e' :: r => parseExpSign r mant
  | 'E' :: r => parseExpSign r mant
  | _ => none

/-- Unsigned StrDecimalLiteral: `D+ ('.' D*)? Exp?` or `'.' D+ Exp?`,
consuming the whole input (exact rational value). -/
def parseDecimal (cs : List Char) : Option ℚ :=
  let ip := cs.takeWhile Char.isDigit
  let rest := cs.drop ip.length
  if ip.isEmpty then
    match rest with
    | '.' :: rest2 =>
      let fp := rest2.takeWhile Char.isDigit
      if fp.isEmpty then none
      else parseExp (rest2.drop fp.length)
        ((digitsToNat fp : ℚ) / (10 : ℚ) ^ fp.length)
    | _ => none
  else
    match rest with
    | '.' :: rest2 =>
      let fp := rest2.takeWhile Char.isDigit
      parseExp (rest2.drop fp.length)
        ((digitsToNat ip : ℚ) + (digitsToNat fp : ℚ) / (10 : ℚ) ^ fp.length)
    | _ => parseExp rest (digitsToNat ip : ℚ)

/-- Signed decimal literal or `Infinity`. -/
def parseSigned (pos : Bool) (cs : List Char) : JSNum :=
  if cs = ('I' :: 'n' :: 'f' :: 'i' :: 'n' :: 'i' :: 't' :: 'y' :: []) then .inf pos
  else
    match parseDecimal cs with
    | some q => .num (if pos then q else -q)
    | none => .nan

/-- StrNumericLiteral after trimming: non-decimal prefixes take no sign. -/
def parseNumeric (cs : List Char) : JSNum :=
  match cs with
  | '0' :: 'x' :: rest => parseRadix 16 rest
  | '0' :: 'X' :: rest => parseRadix 16 rest
  | '0' :: 'o' :: rest => parseRadix 8 rest
  | '0' :: 'O' :: rest => parseRadix 8 rest
  | '0' :: 'b' :: rest => parseRadix 2 rest
  | '0' :: 'B' :: rest => parseRadix 2 rest
  | '+' :: rest => parseSigned true rest
  | '-' :: rest => parseSigned false rest
  | rest => parseSigned true rest

/-- ECMAScript `Number(string)`: trim StrWhiteSpace, empty means `0`,
otherwise the numeric literal grammar, anything else is NaN. -/
def jsToNumber (s : String) : JSNum :=
  let t := jsTrimList s.data
  match t with
  | [] => .num 0
  | _ => parseNumeric t

/-- `Math.round` on the rational model: round half toward positive
infinity. -/
def jsRound (q : ℚ) : ℤ := Rat.floor (q + 1 / 2)

/-! ## Slug generation

The source derives the slug inline in `projectToInitiative`:
`name.toLowerCase().replace(/[^a-z0-9]+/g, '-').replace(/^-|-$/g, '')`. -/

/-- `.replace(/[^a-z0-9]+/g, '-')`: each maximal run of non-`[a-z0-9]`
characters becomes a single hyphen. The flag records whether the previous
character belonged to such a run. -/
def collapseAux : List Char → Bool → List Char
  | [], _ => []
  | c :: rest, inRun =>
    if isSlugChar c then c :: collapseAux rest false
    else if inRun then collapseAux rest true
    else '-' :: collapseAux rest true

/-- The whole-string non-alphanumeric collapse. -/
def collapseNonAlnum (s : String) : String := ⟨collapseAux s.data false⟩

/-- `.replace(/^-|-$/g, '')`: removes one leading and one trailing hyphen
(the trailing one only if it was not already consumed as leading). -/
def stripEdgeHyphens (s : String) : String :=
  let s1 := match s.data with
    | '-' :: t => t
    | t => t
  match s1.getLast? with
  | some '-' => ⟨s1.dropLast⟩
  | _ => ⟨s1⟩

/-- Slug derivation from the project name (inline in the source's
`projectToInitiative`). -/
def slugify (name : String) : String :=
  stripEdgeHyphens (collapseNonAlnum (jsToLower name))

/-! ## Markdown link stripping -/

/-- `stripMarkdownLinks`: undo editor auto-link-wrapping. The source tries
`/^\[([^\]]+)\]\([^)]+\)$/` and then `/^\[([^\]]+)\]\(.+\)$/`, returning
capture group 1 of whichever matches, else the value unchanged. Both anchored
regexes match exactly the strings of shape `[inner](mid)` with `inner`
nonempty and free of `]`, and `mid` nonempty and either free of `)` (first
pattern) or free of line terminators (second); both captures are `inner`. -/
def stripMarkdownLinks (value : String) : String :=
  match value.data with
  | '[' :: rest =>
    let inner := rest.takeWhile (fun c => c != ']')
    if inner.isEmpty then value
    else
      match rest.drop inner.length with
      | ']' :: '(' :: rest2 =>
        match rest2.getLast? with
        | some ')' =>
          let mid := rest2.dropLast
          if !mid.isEmpty && (mid.all (fun c => c != ')') || mid.all dotMatchable)
          then ⟨inner⟩ else value
        | _ => value
      | _ => value
  | _ => value

/-! ## Metadata parsing -/

/-- The per-request metadata extracted from a project's `content` field. -/
structure ProjectMeta where
  url : Option String := none
  cost_estimate : Option JSNum := none
  opencollective_slug : Option String := none
  opencollective_type : Option String := none
  subdomain : Option String := none
  page_path : Option String := none
deriving DecidableEq

/-- Index of the last newline in a character list, if any. -/
def lastNewlineIdx : List Char → Option Nat
  | [] => none
  | c :: rest =>
    match lastNewlineIdx rest with
    | some k => some (k + 1)
    | none => if c = '\n' then some 0 else none

/-- Attempt to match the opening of `/<!--\s*meta\s*\n/` at the head of the
list: the literal `<!--`, a maximal whitespace run, the literal `meta`, then a
whitespace run that must contain a newline; the greedy engine consumes through
the LAST newline of that run. Returns the remainder after the match. -/
def tryOpen : List Char → Option (List Char)
  | '<' :: '!' :: '-' :: '-' :: rest =>
    match rest.dropWhile jsIsWs with
    | 'm' :: 'e' :: 't' :: 'a' :: rest2 =>
      let ws := rest2.takeWhile jsIsWs
      match lastNewlineIdx ws with
      | some k => some (rest2.drop (k + 1))
      | none => none
    | _ => none
  | _ => none

/-- Split at the first occurrence of the literal `-->`: returns the part
before it and the part after it (the lazy `([\s\S]*?)-->` tail). -/
def splitArrow : List Char → Option (List Char × List Char)
  | [] => none
  | '-' :: '-' :: '>' :: rest => some ([], rest)
  | c :: rest =>
    match splitArrow rest with
    | some (a, b) => some (c :: a, b)
    | none => none

/-- Leftmost match of `/<!--\s*meta\s*\n([\s\S]*?)-->/`: scan start
positions left to right; at a position where the opening matches, the capture
runs lazily to the first `-->`. Returns `(before, capture, after)`. -/
def findMetaAux : List Char → Option (List Char × List Char × List Char)
  | [] => none
  | c :: rest =>
    match tryOpen (c :: rest) with
    | some rem =>
      match splitArrow rem with
      | some (block, post) => some ([], block, post)
      | none =>
        match findMetaAux rest with
        | some (a, b, d) => some (c :: a, b, d)
        | none => none
    | none =>
      match findMetaAux rest with
      | some (a, b, d) => some (c :: a, b, d)
      | none => none

/-- String-level wrapper for the meta-block regex search. -/
def findMetaSplit (s : String) : Option (String × String × String) :=
  match findMetaAux s.data with
  | some (a, b, d) => some (⟨a⟩, ⟨b⟩, ⟨d⟩)
  | none => none

/-- The value part of the line regex, `\s*(.+?)\s*$` applied after the colon:
with backtracking worked out, a remainder holding some non-whitespace matches
iff its trimmed core contains no line terminator (capturing the core), and an
all-whitespace remainder matches iff some whitespace character in it is
matchable by `.` (capturing that single character, which trims to empty). -/
def valueCapture (rest : List Char) : Option (List Char) :=
  let t := jsTrimList rest
  if t.isEmpty then
    match (rest.filter dotMatchable).getLast? with
    | some c => some [c]
    | none => none
  else
    if t.all dotMatchable then some t else none

/-- One line of the meta block against `/^\s*(\w+)\s*:\s*(.+?)\s*$/`:
optional whitespace, a word-character key, optional whitespace, a colon, then
the value part. Returns `(key, raw capture)` on a match. -/
def parseLine (line : String) : Option (String × String) :=
  let cs1 := line.data.dropWhile jsIsWs
  let key := cs1.takeWhile isWordChar
  if key.isEmpty then none
  else
    match (cs1.drop key.length).dropWhile jsIsWs with
    | ':' :: rest =>
      match valueCapture rest with
      | some v => some (⟨key⟩, ⟨v⟩)
      | none => none
    | _ => none

/-- The body of the parse loop: a non-matching line leaves the record
unchanged; a matching line trims and link-strips the value and assigns the
recognized key (later lines overwrite earlier ones). -/
def applyMetaLine (m : ProjectMeta) (line : String) : ProjectMeta :=
  match parseLine line with
  | none => m
  | some (key, rawValue) =>
    let value := stripMarkdownLinks (jsTrim rawValue)
    if key = "url" then { m with url := some value }
    else if key = "cost_estimate" then
      { m with cost_estimate := some (jsOrZeroNum (jsToNumber value)) }
    else if key = "opencollective_slug" then { m with opencollective_slug := some value }
    else if key = "opencollective_type" then { m with opencollective_type := some value }
    else if key = "subdomain" then { m with subdomain := some value }
    else if key = "page_path" then { m with page_path := some value }
    else m

/-- `parseMeta(content)`: a falsy content (null or empty) gives empty meta and
empty body; content without a meta block gives empty meta and the trimmed
content; otherwise the matched span is removed from the content (the regex
match is also the first plain occurrence of the matched text, so
`content.replace(metaMatch[0], '')` removes exactly the matched span) and the
captured block is parsed line by line. -/
def parseMeta (content : Option String) : ProjectMeta × String :=
  match content with
  | none => ({}, "")
  | some c =>
    if c = "" then ({}, "")
    else
      match findMetaSplit c with
      | none => ({}, jsTrim c)
      | some (before, block, post) =>
        let body := jsTrim (before ++ post)
        let meta := ((splitLines block.data).map (fun l => (⟨l⟩ : String))).foldl applyMetaLine {}
        (meta, body)

/-! ## State mapping -/

/-- The internal status vocabulary (`'active' | 'in-development' | 'planned'
| 'beta'`). -/
inductive InitiativeStatus where
  | active : InitiativeStatus
  | inDevelopment : InitiativeStatus
  | planned : InitiativeStatus
  | beta : InitiativeStatus
deriving DecidableEq

/-- `mapProjectState`: the fixed table from Linear project states to the
display vocabulary (a TS union type is a plain string at runtime, so the
input is a string and the `default` branch is reachable). -/
def mapProjectState (state : String) : InitiativeStatus :=
  if state = "started" then .active
  else if state = "backlog" then .planned
  else if state = "planned" then .planned
  else if state = "paused" then .beta
  else if state = "completed" then .active
  else if state = "canceled" then .planned
  else .planned

/-! ## GraphQL node types -/

/-- An issue's workflow state (`state { type name }`). -/
structure IssueState where
  type : String
  name : String
deriving DecidableEq

/-- One issue node of a project. -/
structure IssueNode where
  id : String
  title : String
  state : IssueState
  completedAt : Option String
deriving DecidableEq

/-- The `issues` connection of a project node. -/
structure IssueConnection where
  nodes : List IssueNode
deriving DecidableEq

/-- A raw Linear project node as returned by the GraphQL query. `progress`
is the fractional completion value (a JSON number, modelled as an exact
rational). -/
structure LinearProjectNode where
  id : String
  name : String
  description : Option String
  content : Option String
  state : String
  progress : ℚ
  startDate : Option String
  targetDate : Option String
  url : String
  createdAt : String
  updatedAt : String
  issues : IssueConnection
deriving DecidableEq

/-- The canonical Initiative record. `cost_estimate` is a JS number in the
source (`number`), so it is modelled as `JSNum`. -/
structure Initiative where
  id : String
  slug : String
  name : String
  description : String
  url : String
  page_path : Option String
  subdomain : Option String
  completeness : ℤ
  cost_estimate : JSNum
  opencollective_slug : Option String
  opencollective_type : Option String
  status : InitiativeStatus
  features : List String
  next_milestones : List String
  start_date : Option String
  target_date : Option String
  issue_count : ℕ
  completed_issue_count : ℕ
  created_at : String
  updated_at : String
deriving DecidableEq

/-! ## JS `||` on strings -/

/-- `a || b` where `a : string | null` and the result is used as a string:
null and the empty string fall through. -/
def jsOrS (a : Option String) (b : String) : String :=
  match a with
  | none => b
  | some s => if s = "" then b else s

/-- `a || b` for two strings. -/
def jsOrSS (a b : String) : String := if a = "" then b else a

/-- `a || null` where `a : string | undefined`: an absent or empty string
becomes null. -/
def jsOrNone (a : Option String) : Option String :=
  match a with
  | some s => if s = "" then none else some s
  | none => none

/-! ## Initiative assembly -/

/-- `projectToInitiative(project)`: parse the metadata, derive the display
description, bucket the issues, derive the slug and resolve the URL. -/
def projectToInitiative (project : LinearProjectNode) : Initiative :=
  let pm := parseMeta project.content
  let meta := pm.1
  let contentBody := pm.2
  let displayDescription := jsOrS project.description (jsOrSS contentBody project.name)
  let completedIssues := project.issues.nodes.filter (fun i => i.state.type == "completed")
  let openIssues := project.issues.nodes.filter
    (fun i => i.state.type == "started" || i.state.type == "unstarted")
  let slug := slugify project.name
  let url := jsOrS meta.url project.url
  { id := project.id
    slug := slug
    name := project.name
    description := displayDescription
    url := url
    page_path := jsOrNone meta.page_path
    subdomain := jsOrNone meta.subdomain
    completeness := jsRound (project.progress * 100)
    cost_estimate := jsNumOrZero meta.cost_estimate
    opencollective_slug := jsOrNone meta.opencollective_slug
    opencollective_type := jsOrNone meta.opencollective_type
    status := mapProjectState project.state
    features := (completedIssues.take 10).map (fun i => i.title)
    next_milestones := (openIssues.take 5).map (fun i => i.title)
    start_date := project.startDate
    target_date := project.targetDate
    issue_count := project.issues.nodes.length
    completed_issue_count := completedIssues.length
    created_at := project.createdAt
    updated_at := project.updatedAt }

/-! ## Accessors over the fetched list

`getAllInitiatives()` filters out canceled projects, maps
`projectToInitiative` and sorts by `localeCompare` on names; the comparator is
host-defined, so the accessors below are modelled as pure functions of the
resulting initiative list. -/

/-- The pure pre-sort part of `getAllInitiatives`: canceled projects are
excluded, the rest become Initiatives. The final
`sort((a, b) => a.name.localeCompare(b.name))` is not modelled. -/
def assembleInitiatives (nodes : List LinearProjectNode) : List Initiative :=
  (nodes.filter (fun p => p.state != "canceled")).map projectToInitiative

/-- `getInitiativeBySlug` after the fetch: `find` returns the first match or
null. -/
def getInitiativeBySlug (initiatives : List Initiative) (slug : String) : Option Initiative :=
  initiatives.find? (fun i => i.slug == slug)

/-- `pagePath.startsWith('/')` (a one-character prefix test). -/
def jsStartsWithSlash (s : String) : Bool :=
  match s.data with
  | '/' :: _ => true
  | _ => false

/-- `getInitiativeByPagePath` after the fetch: the path is normalized to
start with `/`, then the first initiative with that `page_path` wins. -/
def getInitiativeByPagePath (initiatives : List Initiative) (pagePath : String) :
    Option Initiative :=
  let normalizedPath := if jsStartsWithSlash pagePath then pagePath else "/" ++ pagePath
  initiatives.find? (fun i => i.page_path == some normalizedPath)

/-- `getAverageCompleteness` after the fetch: `0` on an empty list, else
`Math.round` of the mean completeness. -/
def getAverageCompleteness (initiatives : List Initiative) : ℤ :=
  if initiatives.length = 0 then 0
  else jsRound ((((initiatives.map Initiative.completeness).sum : ℤ) : ℚ) /
    (initiatives.length : ℚ))

/-! ## Concrete fixtures used by witnesses and counterexamples -/

/-- A plain project node with no content and no issues. -/
def simpleNode : LinearProjectNode :=
  { id := "p1", name := "Puppet", description := some "A puppet initiative"
    content := none, state := "started", progress := 0
    startDate := none, targetDate := none
    url := "https://linear.app/team/project/p1"
    createdAt := "2024-01-01T00:00:00Z", updatedAt := "2024-01-02T00:00:00Z"
    issues := ⟨[]⟩ }

/-- A node whose issues have state types completed, completed, started,
unstarted and triage (the partition test of the spec). -/
def bucketNode : LinearProjectNode :=
  { id := "p2", name := "Buckets", description := some "Issue partition test"
    content := none, state := "started", progress := 0
    startDate := none, targetDate := none
    url := "https://linear.app/team/project/p2"
    createdAt := "2024-01-01T00:00:00Z", updatedAt := "2024-01-02T00:00:00Z"
    issues := ⟨[
      { id := "i1", title := "f1", state := ⟨"completed", "Done"⟩, completedAt := some "2024-01-01" },
      { id := "i2", title := "f2", state := ⟨"completed", "Done"⟩, completedAt := some "2024-01-02" },
      { id := "i3", title := "m1", state := ⟨"started", "In Progress"⟩, completedAt := none },
      { id := "i4", title := "m2", state := ⟨"unstarted", "Todo"⟩, completedAt := none },
      { id := "i5", title := "t1", state := ⟨"triage", "Triage"⟩, completedAt := none }]⟩ }

/-- A node whose meta block carries a negative cost estimate. -/
def costNegNode : LinearProjectNode :=
  { id := "p3", name := "Negative", description := some "Costs less than nothing"
    content := some "<!-- meta\ncost_estimate: -5\n-->"
    state := "started", progress := 0
    startDate := none, targetDate := none
    url := "https://linear.app/team/project/p3"
    createdAt := "2024-01-01T00:00:00Z", updatedAt := "2024-01-02T00:00:00Z"
    issues := ⟨[]⟩ }

/-- A node with an empty name and no description or content. -/
def emptyNameNode : LinearProjectNode :=
  { id := "p4", name := "", description := none
    content := none, state := "started", progress := 0
    startDate := none, targetDate := none
    url := "https://linear.app/team/project/p4"
    createdAt := "2024-01-01T00:00:00Z", updatedAt := "2024-01-02T00:00:00Z"
    issues := ⟨[]⟩ }

/-- A node named `a a`; its slug is `a-a`. -/
def nodeASpace : LinearProjectNode :=
  { id := "p5", name := "a a", description := some "first collider"
    content := none, state := "started", progress := 0
    startDate := none, targetDate := none
    url := "https://linear.app/team/project/p5"
    createdAt := "2024-01-01T00:00:00Z", updatedAt := "2024-01-02T00:00:00Z"
    issues := ⟨[]⟩ }

/-- A node named `a-a`; its slug is also `a-a`. -/
def nodeAHyphen : LinearProjectNode :=
  { id := "p6", name := "a-a", description := some "second collider"
    content := none, state := "started", progress := 0
    startDate := none, targetDate := none
    url := "https://linear.app/team/project/p6"
    createdAt := "2024-01-01T00:00:00Z", updatedAt := "2024-01-02T00:00:00Z"
    issues := ⟨[]⟩ }

/-- A node whose name has no ASCII letters or digits at all. -/
def bangNode : LinearProjectNode :=
  { id := "p7", name := "!!!", description := some "punctuation only"
    content := none, state := "started", progress := 0
    startDate := none, targetDate := none
    url := "https://linear.app/team/project/p7"
    createdAt := "2024-01-01T00:00:00Z", updatedAt := "2024-01-02T00:00:00Z"
    issues := ⟨[]⟩ }

/-! ## C1: the state mapper -/

/-- C1: `mapProjectState` is total over strings and realizes exactly the
fixed table `started→active`, `backlog→planned`, `planned→planned`,
`paused→beta`, `completed→active`, `canceled→planned`, with every other
string mapping to `planned`. -/
theorem mapProjectState_total_table :
    mapProjectState "started" = InitiativeStatus.active ∧
    mapProjectState "backlog" = InitiativeStatus.planned ∧
    mapProjectState "planned" = InitiativeStatus.planned ∧
    mapProjectState "paused" = InitiativeStatus.beta ∧
    mapProjectState "completed" = InitiativeStatus.active ∧
    mapProjectState "canceled" = InitiativeStatus.planned ∧
    ∀ s : String,
      s ∉ (["started", "backlog", "planned", "paused", "completed", "canceled"] : List String) →
      mapProjectState s = InitiativeStatus.planned := by
  refine ⟨rfl, rfl, rfl, rfl, rfl, rfl, ?_⟩
  intro s hs
  simp only [List.mem_cons, List.not_mem_nil, or_false, not_or] at hs
  obtain ⟨h1, h2, h3, h4, h5, h6⟩ := hs
  simp [mapProjectState, h1, h2, h3, h4, h5, h6]

/-- Witness for C1 at the unknown input `triage`. -/
theorem mapProjectState_total_table_witness :
    mapProjectState "triage" = InitiativeStatus.planned :=
  mapProjectState_total_table.2.2.2.2.2.2 "triage" (by decide)

/-! ## C2: issue aggregation -/

/-- C2: for every project node, `features` is the titles of the first at
most 10 completed issues in source order, `next_milestones` the titles of the
first at most 5 started/unstarted issues; every features entry is the title
of a completed issue and every milestones entry the title of a
started/unstarted issue (so issues of other state types appear in neither
list); `issue_count` counts all supplied issues, `completed_issue_count` the
completed ones, and the latter never exceeds the former. -/
theorem projectToInitiative_issue_buckets (p : LinearProjectNode) :
    (projectToInitiative p).features =
      ((p.issues.nodes.filter (fun i => i.state.type == "completed")).take 10).map
        (fun i => i.title) ∧
    (projectToInitiative p).next_milestones =
      ((p.issues.nodes.filter
          (fun i => i.state.type == "started" || i.state.type == "unstarted")).take 5).map
        (fun i => i.title) ∧
    (projectToInitiative p).features.length ≤ 10 ∧
    (projectToInitiative p).next_milestones.length ≤ 5 ∧
    (projectToInitiative p).issue_count = p.issues.nodes.length ∧
    (projectToInitiative p).completed_issue_count =
      (p.issues.nodes.filter (fun i => i.state.type == "completed")).length ∧
    (projectToInitiative p).completed_issue_count ≤ (projectToInitiative p).issue_count ∧
    (∀ t ∈ (projectToInitiative p).features,
      ∃ i ∈ p.issues.nodes, i.state.type = "completed" ∧ i.title = t) ∧
    (∀ t ∈ (projectToInitiative p).next_milestones,
      ∃ i ∈ p.issues.nodes,
        (i.state.type = "started" ∨ i.state.type = "unstarted") ∧ i.title = t) := by
  refine ⟨rfl, rfl, ?_, ?_, rfl, rfl, ?_, ?_, ?_⟩
  · show (((p.issues.nodes.filter _).take 10).map _).length ≤ 10
    rw [List.length_map, List.length_take]
    exact min_le_left _ _
  · show (((p.issues.nodes.filter _).take 5).map _).length ≤ 5
    rw [List.length_map, List.length_take]
    exact min_le_left _ _
  · show (p.issues.nodes.filter _).length ≤ p.issues.nodes.length
    exact List.length_filter_le _ _
  · intro t ht
    obtain ⟨i, hi, rfl⟩ := List.mem_map.mp ht
    have hmem := List.mem_of_mem_take hi
    have := List.mem_filter.mp hmem
    exact ⟨i, this.1, by simpa using this.2, rfl⟩
  · intro t ht
    obtain ⟨i, hi, rfl⟩ := List.mem_map.mp ht
    have hmem := List.mem_of_mem_take hi
    have := List.mem_filter.mp hmem
    refine ⟨i, this.1, ?_, rfl⟩
    have h2 := this.2
    simp only [Bool.or_eq_true, beq_iff_eq] at h2
    exact h2

/-- Witness for C2 at the spec's partition example (issue state types
completed, completed, started, unstarted, triage). -/
theorem projectToInitiative_issue_buckets_witness :
    (projectToInitiative bucketNode).issue_count = 5 ∧
    (projectToInitiative bucketNode).completed_issue_count = 2 ∧
    (projectToInitiative bucketNode).completed_issue_count ≤
      (projectToInitiative bucketNode).issue_count ∧
    (∃ i ∈ bucketNode.issues.nodes, i.state.type = "completed" ∧ i.title = "f1") := by
  refine ⟨by decide, by decide, (projectToInitiative_issue_buckets bucketNode).2.2.2.2.2.2.1, ?_⟩
  exact (projectToInitiative_issue_buckets bucketNode).2.2.2.2.2.2.2.1 "f1" (by decide)

/-! ## C3: cost_estimate -/

/-- C3 counterexample: a meta block line `cost_estimate: -5` makes the
assembled cost estimate `-5`, which is not a non-negative integer (the claim
asserted non-negativity for every project node). -/
theorem cost_estimate_negative_counterexample :
    (projectToInitiative costNegNode).cost_estimate = JSNum.num (-5) ∧
    ∀ n : ℕ, (projectToInitiative costNegNode).cost_estimate ≠ JSNum.num (n : ℚ) := by
  have h : (projectToInitiative costNegNode).cost_estimate = JSNum.num (-5) := by decide
  refine ⟨h, ?_⟩
  intro n hn
  rw [h] at hn
  have h2 : (-5 : ℚ) = (n : ℚ) := by injection hn
  have h3 : (0 : ℚ) ≤ (n : ℚ) := Nat.cast_nonneg n
  linarith

/-- C3 (amended): `cost_estimate` is `0` when the meta block specifies no
cost_estimate; a `cost_estimate` line whose value is non-numeric (NaN under
`Number`) stores `0`, and parsing never raises (the assembled value is never
NaN) — but the value is not guaranteed non-negative or integral: a negative
or fractional meta value passes through unchanged. -/
theorem cost_estimate_amended (p : LinearProjectNode) (m : ProjectMeta) (line raw : String) :
    ((parseMeta p.content).1.cost_estimate = none →
      (projectToInitiative p).cost_estimate = JSNum.num 0) ∧
    (parseLine line = some ("cost_estimate", raw) →
      jsToNumber (stripMarkdownLinks (jsTrim raw)) = JSNum.nan →
      (applyMetaLine m line).cost_estimate = some (JSNum.num 0)) ∧
    (projectToInitiative p).cost_estimate ≠ JSNum.nan := by
  refine ⟨?_, ?_, ?_⟩
  · intro h
    show jsNumOrZero (parseMeta p.content).1.cost_estimate = JSNum.num 0
    rw [h]
    rfl
  · intro hline hnan
    simp [applyMetaLine, hline, hnan, jsOrZeroNum, jsTruthy]
  · show jsNumOrZero (parseMeta p.content).1.cost_estimate ≠ JSNum.nan
    cases h : (parseMeta p.content).1.cost_estimate with
    | none => simp [jsNumOrZero]
    | some j =>
      simp only [jsNumOrZero, jsOrZeroNum]
      by_cases ht : jsTruthy j
      · simp only [ht, if_true]
        cases j <;> simp_all [jsTruthy]
      · simp [ht]

/-- Witness for C3 (amended): no cost key means `0`, and the value
`notanumber` parses to `0`. -/
theorem cost_estimate_amended_witness :
    (projectToInitiative simpleNode).cost_estimate = JSNum.num 0 ∧
    (applyMetaLine {} "cost_estimate: notanumber").cost_estimate = some (JSNum.num 0) := by
  constructor
  · exact (cost_estimate_amended simpleNode {} "cost_estimate: notanumber" "notanumber").1
      (by decide)
  · exact (cost_estimate_amended simpleNode {} "cost_estimate: notanumber" "notanumber").2.1
      (by decide) (by decide)

/-! ## C4: description fallback -/

/-- C4 counterexample: a project node with a null description, null content
and an empty name assembles to a description that IS the empty string,
refuting the claim that the description is never empty. -/
theorem description_empty_counterexample :
    (projectToInitiative emptyNameNode).description = "" := by decide

/-- C4 (amended): the description is the first non-empty link of the chain
short description → parsed body → project name, and it is non-empty whenever
the project name is non-empty; when all three links are empty it degenerates
to the empty string. -/
theorem description_fallback_amended (p : LinearProjectNode) (d : String) :
    (p.description = some d → d ≠ "" → (projectToInitiative p).description = d) ∧
    ((p.description = none ∨ p.description = some "") →
      (parseMeta p.content).2 ≠ "" →
      (projectToInitiative p).description = (parseMeta p.content).2) ∧
    ((p.description = none ∨ p.description = some "") →
      (parseMeta p.content).2 = "" →
      (projectToInitiative p).description = p.name) ∧
    (p.name ≠ "" → (projectToInitiative p).description ≠ "") := by
  have hd : (projectToInitiative p).description =
      jsOrS p.description (jsOrSS (parseMeta p.content).2 p.name) := rfl
  refine ⟨?_, ?_, ?_, ?_⟩
  · intro h hne
    rw [hd, h]
    simp [jsOrS, hne]
  · intro h hne
    rw [hd]
    rcases h with h | h <;> rw [h] <;> simp [jsOrS, jsOrSS, hne]
  · intro h hbe
    rw [hd]
    rcases h with h | h <;> rw [h] <;> simp [jsOrS, jsOrSS, hbe]
  · intro hn
    rw [hd]
    unfold jsOrS jsOrSS
    cases p.description with
    | none =>
      by_cases hb : (parseMeta p.content).2 = "" <;> simp [hb, hn]
    | some s =>
      by_cases hs : s = ""
      · by_cases hb : (parseMeta p.content).2 = "" <;> simp [hs, hb, hn]
      · simp [hs]

/-- Witness for C4 (amended) at a node with a non-empty short description. -/
theorem description_fallback_amended_witness :
    (projectToInitiative simpleNode).description = "A puppet initiative" ∧
    (projectToInitiative simpleNode).description ≠ "" := by
  constructor
  · exact (description_fallback_amended simpleNode "A puppet initiative").1
      (by decide) (by decide)
  · exact (description_fallback_amended simpleNode "A puppet initiative").2.2.2 (by decide)

/-! ## C6: parseMeta without a meta block -/

/-- C6: `parseMeta` on absent content returns empty meta and empty body;
on content in which the meta-block regex finds no match it returns empty
meta and the trimmed original content. -/
theorem parseMeta_no_block (c : String) :
    parseMeta none = ({}, "") ∧
    (findMetaSplit c = none → parseMeta (some c) = ({}, jsTrim c)) := by
  refine ⟨rfl, ?_⟩
  intro hf
  by_cases hc : c = ""
  · subst hc
    rfl
  · simp [parseMeta, hc, hf]

/-- Witness for C6 on a content string without a meta block. -/
theorem parseMeta_no_block_witness :
    parseMeta (some "no meta here") = ({}, jsTrim "no meta here") :=
  (parseMeta_no_block "no meta here").2 (by decide)

/-! ## C7: average completeness -/

/-- C7: `getAverageCompleteness` returns `0` on the empty initiative list
(total and never dividing), and on a non-empty list it returns the rounded
mean of the completeness values. -/
theorem getAverageCompleteness_spec (l : List Initiative) :
    getAverageCompleteness [] = 0 ∧
    (l ≠ [] → getAverageCompleteness l =
      jsRound ((((l.map Initiative.completeness).sum : ℤ) : ℚ) / (l.length : ℚ))) := by
  refine ⟨rfl, ?_⟩
  intro h
  unfold getAverageCompleteness
  rw [if_neg (fun hl => h (List.length_eq_zero.mp hl))]

/-- Witness for C7 on a one-element list. -/
theorem getAverageCompleteness_spec_witness :
    getAverageCompleteness [projectToInitiative simpleNode] =
      jsRound (((([projectToInitiative simpleNode].map Initiative.completeness).sum : ℤ) : ℚ) /
        (([projectToInitiative simpleNode] : List Initiative).length : ℚ)) :=
  (getAverageCompleteness_spec [projectToInitiative simpleNode]).2 (by simp)

/-! ## C8: page-path normalization -/

/-- C8: for a path not starting with `/`, looking up by that path and by the
slash-prefixed path agree over any fetched initiative list. -/
theorem getInitiativeByPagePath_normalized (l : List Initiative) (p : String)
    (h : jsStartsWithSlash p = false) :
    getInitiativeByPagePath l p = getInitiativeByPagePath l ("/" ++ p) := by
  have h2 : jsStartsWithSlash ("/" ++ p) = true := by
    cases p with
    | mk data => rfl
  simp [getInitiativeByPagePath, h, h2]

/-- Witness for C8 at the path `foo`. -/
theorem getInitiativeByPagePath_normalized_witness :
    getInitiativeByPagePath [projectToInitiative simpleNode] "foo" =
      getInitiativeByPagePath [projectToInitiative simpleNode] ("/" ++ "foo") :=
  getInitiativeByPagePath_normalized [projectToInitiative simpleNode] "foo" (by decide)

/-! ## C9: slug collisions -/

/-- C9 counterexample: the differently-named projects `a a` and `a-a` both
normalize to the slug `a-a`; the two assembled initiatives are distinct, and
in EITHER order of the two-element name-sorted list, `getInitiativeBySlug`
returns the first element — never the last as the claim states. -/
theorem getInitiativeBySlug_shadow_counterexample :
    (projectToInitiative nodeASpace).slug = "a-a" ∧
    (projectToInitiative nodeAHyphen).slug = "a-a" ∧
    projectToInitiative nodeASpace ≠ projectToInitiative nodeAHyphen ∧
    nodeASpace.name ≠ nodeAHyphen.name ∧
    getInitiativeBySlug
      [projectToInitiative nodeASpace, projectToInitiative nodeAHyphen] "a-a" =
      some (projectToInitiative nodeASpace) ∧
    getInitiativeBySlug
      [projectToInitiative nodeAHyphen, projectToInitiative nodeASpace] "a-a" =
      some (projectToInitiative nodeAHyphen) := by
  refine ⟨by decide, by decide, ?_, by decide, rfl, rfl⟩
  intro h
  exact absurd (congrArg Initiative.id h) (by decide)

/-- C9 (amended): in the name-sorted list, the FIRST initiative bearing a
slug wins the lookup: if no earlier entry has the slug, `getInitiativeBySlug`
returns that entry, silently shadowing every later colliding one. -/
theorem getInitiativeBySlug_first_wins (i : Initiative) (s : String)
    (pre post : List Initiative)
    (hpre : ∀ j ∈ pre, j.slug ≠ s) (hi : i.slug = s) :
    getInitiativeBySlug (pre ++ i :: post) s = some i := by
  induction pre with
  | nil => simp [getInitiativeBySlug, hi]
  | cons a t ih =>
    have ha : (a.slug == s) = false := by
      simpa using hpre a (List.mem_cons_self a t)
    have ih2 := ih (fun j hj => hpre j (List.mem_cons_of_mem a hj))
    simpa [getInitiativeBySlug, List.find?_cons, ha] using ih2

/-- Witness for C9 (amended): with a non-colliding initiative in front, the
first slug-`a-a` initiative is returned, shadowing the later collider. -/
theorem getInitiativeBySlug_first_wins_witness :
    getInitiativeBySlug ([projectToInitiative simpleNode] ++
      projectToInitiative nodeASpace :: [projectToInitiative nodeAHyphen]) "a-a" =
      some (projectToInitiative nodeASpace) :=
  getInitiativeBySlug_first_wins (projectToInitiative nodeASpace) "a-a"
    [projectToInitiative simpleNode] [projectToInitiative nodeAHyphen]
    (by decide) (by decide)

/-! ## C10: all-punctuation names -/

/-- Helper: collapsing a run-flagged list of characters none of which is in
`[a-z0-9]` while already inside a run produces nothing. -/
theorem collapseAux_true_nil (cs : List Char) (h : ∀ c ∈ cs, isSlugChar c = false) :
    collapseAux cs true = [] := by
  induction cs with
  | nil => rfl
  | cons c rest ih =>
    have hc : isSlugChar c = false := h c (List.mem_cons_self c rest)
    have ih2 := ih (fun x hx => h x (List.mem_cons_of_mem c hx))
    simp [collapseAux, hc, ih2]

/-- Helper: the slug pipeline after lowercasing maps an all-non-alphanumeric
character list to the empty string. -/
theorem stripEdge_collapse_empty (cs : List Char) (h : ∀ c ∈ cs, isSlugChar c = false) :
    stripEdgeHyphens ⟨collapseAux cs false⟩ = "" := by
  cases cs with
  | nil => rfl
  | cons c rest =>
    have hc : isSlugChar c = false := h c (List.mem_cons_self c rest)
    have hrest : collapseAux rest true = [] :=
      collapseAux_true_nil rest (fun x hx => h x (List.mem_cons_of_mem c hx))
    rw [show collapseAux (c :: rest) false = ['-'] from by simp [collapseAux, hc, hrest]]
    rfl

/-- C10: a project name that lowercases to a string with no `[a-z0-9]`
character yields the empty slug (the Initiative is still a total value), and
a slug lookup only ever returns an initiative whose slug equals the query —
so such an initiative is reachable only through the empty-slug lookup. -/
theorem slug_empty_for_nonalnum (p : LinearProjectNode) (l : List Initiative)
    (s : String) (i : Initiative) :
    ((∀ c ∈ (jsToLower p.name).data, isSlugChar c = false) →
      (projectToInitiative p).slug = "") ∧
    (getInitiativeBySlug l s = some i → i.slug = s) := by
  constructor
  · intro h
    show slugify p.name = ""
    unfold slugify collapseNonAlnum
    exact stripEdge_collapse_empty _ h
  · intro hf
    unfold getInitiativeBySlug at hf
    have h2 := List.find?_some hf
    simpa using h2

/-- Witness for C10: the name `!!!` produces the empty slug, and a concrete
lookup returns only a slug-matching initiative. -/
theorem slug_empty_for_nonalnum_witness :
    (projectToInitiative bangNode).slug = "" ∧
    (projectToInitiative simpleNode).slug = "puppet" := by
  constructor
  · exact (slug_empty_for_nonalnum bangNode [] "" (projectToInitiative bangNode)).1 (by decide)
  · exact (slug_empty_for_nonalnum simpleNode [projectToInitiative simpleNode] "puppet"
      (projectToInitiative simpleNode)).2 (by rfl)

end LinearStatus
